import Mathlib

/-
Shallow embedding of the geospatial feature-extraction core of the
resale-price-predictor repository: the `MeanEncoder` fit/transform object
and the `count_nearby` proximity query from `src/utils.py`.

Modelling conventions:
* pandas DataFrames become lists of `Row` records; the `latlong_col` and
  `name_col` columns are the `latlong` and `name` fields, and the derived
  `"km"` column is the `km : Option ℚ` field (`none` = column absent).
* The geopy `geodesic` call is an external library function and is taken
  as a parameter `geo : Coord → Coord → ℚ` (its result's `.km` value).
* Python exceptions become `Except PyErr`; machine floats become `ℚ`.
* Sorting (pandas `sort_values` and the `groupby` key order) is modelled
  with `List.insertionSort`; pandas leaves the relative order of ties
  implementation-defined and no claim depends on it.
-/

/-- A coordinate: a (latitude, longitude) pair of degrees. -/
abbrev Coord : Type := ℚ × ℚ

/-- A cell of the `latlong` column: either a raw string (which the code
passes to Python `eval`) or an already structured pair (utils.py l.69-70). -/
inductive CellVal where
  | str (s : String)
  | pair (c : Coord)
deriving DecidableEq

/-- One row of a facility DataFrame: the `latlong` column, the `name_col`
identifier column, and the derived `"km"` column (`none` when absent). -/
structure Row where
  latlong : CellVal
  name : String
  km : Option ℚ := none
deriving DecidableEq

/-- A facility DataFrame: an ordered sequence of rows. -/
abbrev Frame := List Row

/-- Python-level failures of the modelled code, plus the two typed errors
that spec section 7 prescribes for the proximity index and the encoder
(`MalformedCoordinateError`, `UnknownCategoryError`); those two are part of
the spec's taxonomy only and are produced by no function modelled from src,
which lets theorems state that fact. `evalRaised` stands for whatever
exception Python `eval` raises on a malformed string; `attrError` is the
`AttributeError` from `nan.km` when the frame is empty; `keyError` is a
dict `KeyError`. -/
inductive PyErr where
  | evalRaised
  | attrError
  | keyError
  | malformedCoordinateError
  | unknownCategoryError
deriving DecidableEq

/-- The natural-number value of a list of decimal digit characters. -/
def digitsVal (l : List Char) : ℕ :=
  l.foldl (fun a c => a * 10 + (c.toNat - 48)) 0

/-- Strip leading and trailing blanks from a character list. -/
def trimChars (l : List Char) : List Char :=
  ((l.dropWhile (fun c => c = ' ')).reverse.dropWhile (fun c => c = ' ')).reverse

/-- Split a character list on a separator character. -/
def splitOnChar (sep : Char) : List Char → List (List Char)
  | [] => [[]]
  | c :: rest =>
    match splitOnChar sep rest with
    | [] => [[c]]
    | h :: t => if c = sep then [] :: h :: t else (c :: h) :: t

/-- Parse an unsigned decimal literal such as "103.8198" as a rational. -/
def parseUnsigned (s : List Char) : Option ℚ :=
  match splitOnChar ('.') s with
  | [i] =>
      if i ≠ [] ∧ i.all Char.isDigit then some (digitsVal i) else none
  | [i, f] =>
      if i ≠ [] ∧ f ≠ [] ∧ i.all Char.isDigit ∧ f.all Char.isDigit then
        some ((digitsVal i : ℚ) + (digitsVal f : ℚ) / (10 : ℚ) ^ f.length)
      else none
  | _ => none

/-- Parse an optionally signed decimal literal, allowing surrounding
blanks. -/
def parseSigned (s : List Char) : Option ℚ :=
  match trimChars s with
  | '-' :: rest => (parseUnsigned rest).map (fun q => -q)
  | t => parseUnsigned t

/-- What Python `eval` returns on a coordinate-literal string "(lat, lon)".
On any other string the model treats `eval` as raising an exception (the
real `eval` may instead execute the string as arbitrary code — an effect
outside this embedding, noted where relevant). -/
def parseCoordString (s : String) : Option Coord :=
  match trimChars s.data with
  | '(' :: rest =>
    match rest.getLast? with
    | some ')' =>
      match splitOnChar (',') rest.dropLast with
      | [a, b] =>
        match parseSigned a, parseSigned b with
        | some la, some lo => some (la, lo)
        | _, _ => none
      | _ => none
    | _ => none
  | _ => none

/-- `eval(x) if isinstance(x, str) else x` (utils.py l.69 and the lambda of
l.70). -/
def evalCell : CellVal → Except PyErr Coord
  | CellVal.str s =>
    match parseCoordString s with
    | some c => Except.ok c
    | none => Except.error PyErr.evalRaised
  | CellVal.pair c => Except.ok c

/-- `df[latlong_col].apply(lambda x: eval(x) if isinstance(x, str) else x)`
(utils.py l.70): the evaluated coordinate of every row; pandas `apply`
propagates the first exception and then no column assignment happens. -/
def evalFrame : Frame → Except PyErr (List Coord)
  | [] => Except.ok []
  | r :: t =>
    match evalCell r.latlong with
    | Except.error e => Except.error e
    | Except.ok c =>
      match evalFrame t with
      | Except.error e => Except.error e
      | Except.ok cs => Except.ok (c :: cs)

/-- The `"km"` column entry of a row. Every use below follows the
assignment `df["km"] = ...`, so the cell is present and the default `0` for
an absent cell is never read. -/
def kmD (r : Row) : ℚ :=
  r.km.getD 0

/-- `uniqueFirst` with explicit structural fuel (first argument); with
enough fuel it deduplicates keeping first occurrences. -/
def uniqueFirstN : ℕ → List String → List String
  | 0, _ => []
  | _ + 1, [] => []
  | n + 1, a :: l => a :: uniqueFirstN n (l.filter (fun b => b ≠ a))

/-- pandas `Series.unique()`: deduplicate, keeping first occurrences in
order. -/
def uniqueFirst (l : List String) : List String :=
  uniqueFirstN l.length l

/-- Python `round(q, 1)`: round to one decimal place. (Python rounds exact
half-ulp ties to even; no claim depends on the tie direction, so the model
uses `round`.) -/
def round1 (q : ℚ) : ℚ :=
  (round (10 * q) : ℤ) / 10

/-- The observable outcome of one `count_nearby` call: `df` is the shared
DataFrame as left mutated in place by the call, and `count`, `nearest`,
`facilities` are the returned triple. -/
structure CNResult where
  df : Frame
  count : ℕ
  nearest : ℚ
  facilities : List String
deriving DecidableEq

/-- Ordering of rows by the `"km"` column, used by `sort_values("km")`. -/
def kmLE (a b : Row) : Prop :=
  kmD a ≤ kmD b

instance : DecidableRel kmLE :=
  fun a b => inferInstanceAs (Decidable (kmD a ≤ kmD b))

instance : IsTotal Row kmLE :=
  ⟨fun a b => le_total (kmD a) (kmD b)⟩

instance : IsTrans Row kmLE :=
  ⟨fun _ _ _ hab hbc => le_trans hab hbc⟩

/-- `df[latlong_col] = ...` (utils.py l.70): overwrite the `latlong` column
with the evaluated cells. -/
def assignLatlong (df : Frame) (coords : List Coord) : Frame :=
  (df.zip coords).map (fun rc => { rc.1 with latlong := CellVal.pair rc.2 })

/-- `df["km"] = df[latlong_col].apply(lambda x: geodesic(x_loc, x))`
(utils.py l.72): assign the derived `"km"` column in place. -/
def assignKm (df : Frame) (kms : List ℚ) : Frame :=
  (df.zip kms).map (fun rk => { rk.1 with km := some rk.2 })

/-- `df[df["km"] <= radius_km]` (utils.py l.73 and l.75): the rows within
the radius, boundary included. -/
def inRadius (df : Frame) (radius_km : ℚ) : Frame :=
  df.filter (fun r => decide (kmD r ≤ radius_km))

/-- `.sort_values("km")` (utils.py l.75): sort rows ascending by the
`"km"` column. -/
def sortByKm (df : Frame) : Frame :=
  df.insertionSort kmLE

/-- The successful outcome of `count_nearby` once the point `xl` and the
column `coords` have been evaluated and the minimum distance is `m`. -/
def queryOutcome (geo : Coord → Coord → ℚ) (xl : Coord) (df : Frame)
    (coords : List Coord) (radius_km m : ℚ) : CNResult :=
  let df2 := assignKm (assignLatlong df coords) (coords.map (fun c => geo xl c))
  { df := df2
    count := (inRadius df2 radius_km).length
    nearest := round1 m
    facilities := uniqueFirst ((sortByKm (inRadius df2 radius_km)).map Row.name) }

/-- `count_nearby` (utils.py l.56-77), line by line: evaluate the reference
point `x`; overwrite the `latlong` column with its evaluated cells;
assign the derived `"km"` column from `geo`; `count` the rows with
`km ≤ radius_km`; take `round(df["km"].min().km, 1)` — on an empty frame
the pandas `min` is `nan` and `.km` raises `AttributeError`; and list the
`name_col` values of the in-radius rows sorted by `"km"`, deduplicated by
pandas `unique`. -/
def count_nearby (geo : Coord → Coord → ℚ) (x : CellVal) (df : Frame)
    (radius_km : ℚ) : Except PyErr CNResult :=
  match evalCell x with
  | Except.error e => Except.error e
  | Except.ok x_loc =>
    match evalFrame df with
    | Except.error e => Except.error e
    | Except.ok coords =>
      match (coords.map (fun c => geo x_loc c)).min? with
      | none => Except.error PyErr.attrError
      | some m => Except.ok (queryOutcome geo x_loc df coords radius_km m)

/-- The targets (resale prices) of the samples whose category is `c`. -/
def targetsFor (samples : List (String × ℚ)) (c : String) : List ℚ :=
  (samples.filter (fun p => decide (p.1 = c))).map Prod.snd

/-- The arithmetic mean of `target` over the samples in category `c`
(`groupby(column).resale_price.mean()` at key `c`). -/
def meanFor (samples : List (String × ℚ)) (c : String) : ℚ :=
  (targetsFor samples c).sum / (targetsFor samples c).length

/-- Lexicographic comparison of character lists, as Python compares
strings. -/
def strLEb : List Char → List Char → Bool
  | [], _ => true
  | _ :: _, [] => false
  | a :: as, b :: bs => if a < b then true else if b < a then false else strLEb as bs

/-- Ascending string order used for the pandas `groupby` key order. -/
def strLE (a b : String) : Prop :=
  strLEb a.data b.data = true

instance : DecidableRel strLE :=
  fun a b => inferInstanceAs (Decidable (strLEb a.data b.data = true))

/-- The distinct categories in pandas `groupby` key order (unique keys,
sorted ascending). -/
def groupKeys (samples : List (String × ℚ)) : List String :=
  (uniqueFirst (samples.map Prod.fst)).insertionSort strLE

/-- Ordering of (category, mean) pairs by mean value, used by
`sort_values()`. -/
def meanLE (p q : String × ℚ) : Prop :=
  p.2 ≤ q.2

instance : DecidableRel meanLE :=
  fun p q => inferInstanceAs (Decidable (p.2 ≤ q.2))

instance : IsTotal (String × ℚ) meanLE :=
  ⟨fun p q => le_total p.2 q.2⟩

instance : IsTrans (String × ℚ) meanLE :=
  ⟨fun _ _ _ hab hbc => le_trans hab hbc⟩

/-- `X.groupby(column).resale_price.mean().sort_values()` (utils.py l.27):
the (category, mean) pairs sorted ascending by mean value. -/
def sortedMeans (samples : List (String × ℚ)) : List (String × ℚ) :=
  ((groupKeys samples).map (fun c => (c, meanFor samples c))).insertionSort meanLE

/-- The fitted state of `MeanEncoder` (utils.py l.27-29): the dicts
`self.encoding` and `self.inverse_encoding`, as insertion-ordered
association lists. The input DataFrame column pair
(`self.column`, `resale_price`) is the list of samples. -/
structure MeanEncoder where
  encoding : List (String × ℕ)
  inverse_encoding : List (ℕ × String)
deriving DecidableEq

/-- `MeanEncoder.fit` (utils.py l.17-30):
`self.encoding = {cat: i for i, cat in enumerate(counts.index)}` and
`self.inverse_encoding = {i: cat for cat, i in self.encoding.items()}`. -/
def MeanEncoder.fit (samples : List (String × ℚ)) : MeanEncoder :=
  let enc := (sortedMeans samples).enum.map (fun ic => (ic.2.1, ic.1))
  { encoding := enc
    inverse_encoding := enc.map (fun p => (p.2, p.1)) }

/-- `MeanEncoder.transform` applied to one categorical value (the lambda of
utils.py l.42): `self.encoding[x]`, a dict lookup that raises `KeyError`
when the key is absent. -/
def MeanEncoder.transform (e : MeanEncoder) (c : String) : Except PyErr ℕ :=
  match e.encoding.lookup c with
  | some i => Except.ok i
  | none => Except.error PyErr.keyError

/-- `MeanEncoder.inverse_transform` applied to one encoded value (the
lambda of utils.py l.54): `self.inverse_encoding[x]`. -/
def MeanEncoder.inverse_transform (e : MeanEncoder) (r : ℕ) : Except PyErr String :=
  match e.inverse_encoding.lookup r with
  | some c => Except.ok c
  | none => Except.error PyErr.keyError

/-! ### Helper lemmas: `uniqueFirst` -/

lemma uniqueFirstN_congr : ∀ (n m : ℕ) (l : List String), l.length ≤ n → l.length ≤ m →
    uniqueFirstN n l = uniqueFirstN m l := by
  intro n
  induction n with
  | zero =>
    intro m l hn _hm
    rw [List.length_eq_zero.1 (Nat.le_zero.1 hn)]
    cases m <;> rfl
  | succ n ih =>
    intro m l hn hm
    cases l with
    | nil => cases m <;> rfl
    | cons a t =>
      cases m with
      | zero => simp at hm
      | succ m =>
        simp only [uniqueFirstN]
        congr 1
        have h1 := List.length_filter_le (fun b => decide (b ≠ a)) t
        simp only [List.length_cons] at hn hm
        exact ih m _ (by omega) (by omega)

lemma uniqueFirst_nil : uniqueFirst [] = [] := rfl

lemma uniqueFirst_cons (a : String) (l : List String) :
    uniqueFirst (a :: l) = a :: uniqueFirst (l.filter (fun b => b ≠ a)) := by
  show uniqueFirstN (a :: l).length (a :: l) = _
  simp only [List.length_cons, uniqueFirstN]
  congr 1
  exact uniqueFirstN_congr l.length _ _ (List.length_filter_le _ _) le_rfl

lemma uniqueFirst_rec {P : List String → Prop} (h0 : P [])
    (h1 : ∀ a l, P (l.filter (fun b => b ≠ a)) → P (a :: l)) : ∀ l, P l := by
  have key : ∀ (n : ℕ) (l : List String), l.length ≤ n → P l := by
    intro n
    induction n with
    | zero =>
      intro l hl
      rw [List.length_eq_zero.1 (Nat.le_zero.1 hl)]
      exact h0
    | succ n ih =>
      intro l hl
      cases l with
      | nil => exact h0
      | cons a t =>
        refine h1 a t (ih _ ?_)
        have := List.length_filter_le (fun b => decide (b ≠ a)) t
        simp only [List.length_cons] at hl
        omega
  exact fun l => key l.length l le_rfl

lemma mem_uniqueFirst (b : String) : ∀ (l : List String), b ∈ uniqueFirst l ↔ b ∈ l := by
  refine uniqueFirst_rec (by simp [uniqueFirst_nil]) ?_
  intro a t ih
  rw [uniqueFirst_cons]
  by_cases hba : b = a
  · simp [hba]
  · simp only [ne_eq, decide_not] at ih ⊢
    simp [hba, ih, List.mem_filter]

lemma nodup_uniqueFirst : ∀ (l : List String), (uniqueFirst l).Nodup := by
  refine uniqueFirst_rec (by simp [uniqueFirst_nil]) ?_
  intro a t ih
  rw [uniqueFirst_cons]
  refine List.nodup_cons.2 ⟨?_, ih⟩
  intro hmem
  have := (mem_uniqueFirst a _).1 hmem
  simp [List.mem_filter] at this

lemma length_uniqueFirst_le : ∀ (l : List String), (uniqueFirst l).length ≤ l.length := by
  refine uniqueFirst_rec (by simp [uniqueFirst_nil]) ?_
  intro a t ih
  rw [uniqueFirst_cons]
  simp only [List.length_cons]
  have h2 := List.length_filter_le (fun b => decide (b ≠ a)) t
  omega

lemma length_uniqueFirst_eq_iff : ∀ (l : List String),
    (uniqueFirst l).length = l.length ↔ l.Nodup := by
  refine uniqueFirst_rec (by simp [uniqueFirst_nil]) ?_
  intro a t ih
  rw [uniqueFirst_cons]
  simp only [List.length_cons, List.nodup_cons]
  constructor
  · intro h
    have h2 := List.length_filter_le (fun b => decide (b ≠ a)) t
    have h3 := length_uniqueFirst_le (t.filter (fun b => decide (b ≠ a)))
    have hfe : t.filter (fun b => decide (b ≠ a)) = t := by
      refine List.filter_eq_self.2 ?_
      intro x hx
      by_contra hc
      have : (t.filter (fun b => decide (b ≠ a))).length < t.length :=
        List.length_filter_lt_length_iff_exists.2 ⟨x, hx, by simpa using hc⟩
      omega
    have hnd : t.Nodup := by
      have := ih.1 (by omega)
      rwa [hfe] at this
    refine ⟨?_, hnd⟩
    intro hat
    have hmf : a ∈ t.filter (fun b => decide (b ≠ a)) := by
      rw [hfe]
      exact hat
    simp [List.mem_filter] at hmf
  · rintro ⟨hat, hnd⟩
    have hfe : t.filter (fun b => decide (b ≠ a)) = t := by
      refine List.filter_eq_self.2 ?_
      intro x hx
      simp only [decide_eq_true_eq]
      intro hxa
      exact hat (hxa ▸ hx)
    rw [hfe]
    have ih2 := ih
    rw [hfe] at ih2
    simp [ih2.2 hnd]

/-! ### Helper lemmas: association-list lookup -/

lemma lookup_eq_some_of_mem {α β : Type} [BEq α] [LawfulBEq α] :
    ∀ (l : List (α × β)) (a : α) (b : β), (l.map Prod.fst).Nodup → (a, b) ∈ l →
      l.lookup a = some b := by
  intro l
  induction l with
  | nil => simp
  | cons hd t ih =>
    intro a b hnd hm
    obtain ⟨k, v⟩ := hd
    rw [List.lookup_cons]
    by_cases hak : a = k
    · subst hak
      have hbv : b = v := by
        rcases List.mem_cons.1 hm with h | h
        · exact (Prod.mk.injEq _ _ _ _ ▸ h).2.symm ▸ rfl
        · exfalso
          have : a ∈ t.map Prod.fst := List.mem_map.2 ⟨(a, b), h, rfl⟩
          exact (List.nodup_cons.1 (by simpa using hnd)).1 this
      simp [hbv]
    · have hne : (a == k) = false := beq_eq_false_iff_ne.2 hak
      rw [hne]
      have hm' : (a, b) ∈ t := by
        rcases List.mem_cons.1 hm with h | h
        · exact absurd (congrArg Prod.fst h) hak
        · exact h
      exact ih a b (by simpa using (List.nodup_cons.1 (by simpa using hnd)).2) hm'

/-! ### Helper lemmas: the `count_nearby` pipeline -/

lemma evalFrame_length : ∀ {df : Frame} {coords : List Coord},
    evalFrame df = Except.ok coords → coords.length = df.length := by
  intro df
  induction df with
  | nil =>
    intro coords h
    simp [evalFrame] at h
    simp [h.symm]
  | cons r t ih =>
    intro coords h
    rw [evalFrame] at h
    cases hc : evalCell r.latlong with
    | error e => rw [hc] at h; exact absurd h (by simp)
    | ok c =>
      rw [hc] at h
      cases ht : evalFrame t with
      | error e => rw [ht] at h; exact absurd h (by simp)
      | ok cs =>
        rw [ht] at h
        simp only [Except.ok.injEq] at h
        subst h
        simp [ih ht]

lemma count_nearby_ok_iff {geo : Coord → Coord → ℚ} {x : CellVal} {df : Frame}
    {radius : ℚ} {res : CNResult} :
    count_nearby geo x df radius = Except.ok res ↔
    ∃ xl coords m, evalCell x = Except.ok xl ∧ evalFrame df = Except.ok coords ∧
      (coords.map (fun c => geo xl c)).min? = some m ∧
      res = queryOutcome geo xl df coords radius m := by
  rw [count_nearby]
  cases hx : evalCell x with
  | error e => simp [hx]
  | ok xl =>
    cases hdf : evalFrame df with
    | error e => simp [hx, hdf]
    | ok coords =>
      cases hm : (coords.map (fun c => geo xl c)).min? with
      | none => simp [hx, hdf, hm]
      | some m =>
        simp only [hx, hdf, hm, Except.ok.injEq]
        constructor
        · intro h
          exact ⟨xl, coords, m, rfl, rfl, hm, h.symm⟩
        · rintro ⟨xl', coords', m', h1, h2, h3, h4⟩
          cases h1; cases h2
          rw [hm] at h3
          cases h3
          exact h4.symm

/-- The row produced for `(r, c)` by the two column assignments of
utils.py l.70 and l.72. -/
def fusedRow (f : Coord → ℚ) (rc : Row × Coord) : Row :=
  { latlong := CellVal.pair rc.2, name := rc.1.name, km := some (f rc.2) }

lemma assignKm_assignLatlong_eq (f : Coord → ℚ) : ∀ (df : Frame) (coords : List Coord),
    assignKm (assignLatlong df coords) (coords.map f) = (df.zip coords).map (fusedRow f) := by
  intro df
  induction df with
  | nil => intro coords; rfl
  | cons r t ih =>
    intro coords
    cases coords with
    | nil => rfl
    | cons c cs =>
      simp only [assignLatlong, assignKm, List.map_cons, List.zip_cons_cons] at ih ⊢
      simp [fusedRow, ← ih cs, assignLatlong, assignKm]

lemma evalFrame_fused (f : Coord → ℚ) : ∀ (df : Frame) (coords : List Coord),
    coords.length = df.length →
    evalFrame ((df.zip coords).map (fusedRow f)) = Except.ok coords := by
  intro df
  induction df with
  | nil =>
    intro coords hlen
    rw [List.length_nil, List.length_eq_zero] at hlen
    subst hlen
    rfl
  | cons r t ih =>
    intro coords hlen
    cases coords with
    | nil => simp at hlen
    | cons c cs =>
      simp only [List.length_cons] at hlen
      rw [List.zip_cons_cons, List.map_cons, evalFrame]
      have hcell : evalCell (fusedRow f (r, c)).latlong = Except.ok c := rfl
      rw [hcell, ih cs (by omega)]

lemma fused_zip_self (f : Coord → ℚ) : ∀ (df : Frame) (coords : List Coord),
    (((df.zip coords).map (fusedRow f)).zip coords).map (fusedRow f) =
      (df.zip coords).map (fusedRow f) := by
  intro df
  induction df with
  | nil => intro coords; rfl
  | cons r t ih =>
    intro coords
    cases coords with
    | nil => rfl
    | cons c cs =>
      simp only [List.zip_cons_cons, List.map_cons]
      rw [ih cs]
      rfl

lemma kmD_fusedRow (f : Coord → ℚ) (rc : Row × Coord) : kmD (fusedRow f rc) = f rc.2 := rfl

/-! ### Helper lemmas: sorted prefix-deduplicated facility names -/

lemma pairwise_names_of_sorted (n : ℕ) :
    ∀ (l : List Row), l.length ≤ n → List.Pairwise (fun a b => kmD a ≤ kmD b) l →
    List.Pairwise (fun a b => ∃ ra, ra ∈ l ∧ ra.name = a ∧
      ∀ rb, rb ∈ l → rb.name = b → kmD ra ≤ kmD rb) (uniqueFirst (l.map Row.name)) := by
  induction n with
  | zero =>
    intro l hl _hs
    rw [List.length_eq_zero.1 (Nat.le_zero.1 hl)]
    simp [uniqueFirst_nil]
  | succ n ih =>
    intro l hl hs
    cases l with
    | nil => simp [uniqueFirst_nil]
    | cons r t =>
      have hstep : uniqueFirst ((r :: t).map Row.name)
          = r.name :: uniqueFirst ((t.filter (fun rb => decide (rb.name ≠ r.name))).map Row.name) := by
        rw [List.map_cons, uniqueFirst_cons, List.filter_map]
        rfl
      rw [hstep]
      have hmem' : ∀ b ∈ uniqueFirst ((t.filter (fun rb => decide (rb.name ≠ r.name))).map Row.name),
          b ≠ r.name := by
        intro b hb
        have hb2 := (mem_uniqueFirst b _).1 hb
        rcases List.mem_map.1 hb2 with ⟨rb', hrb', hnb⟩
        have := (List.mem_filter.1 hrb').2
        simp only [decide_eq_true_eq] at this
        exact hnb ▸ this
      refine List.pairwise_cons.2 ⟨?_, ?_⟩
      · intro b hb
        refine ⟨r, List.mem_cons_self r t, rfl, ?_⟩
        intro rb hrb hnb
        rcases List.mem_cons.1 hrb with hcase | hcase
        · exact absurd (hcase ▸ hnb : r.name = b).symm (hmem' b hb)
        · exact List.rel_of_pairwise_cons hs hcase
      · have hs' : List.Pairwise (fun a b => kmD a ≤ kmD b)
            (t.filter (fun rb => decide (rb.name ≠ r.name))) :=
          (hs.of_cons).filter _
        have hlen' : (t.filter (fun rb => decide (rb.name ≠ r.name))).length ≤ n := by
          have h1 := List.length_filter_le (fun rb => decide (rb.name ≠ r.name)) t
          simp only [List.length_cons] at hl
          omega
        have IH := ih _ hlen' hs'
        refine List.Pairwise.imp_of_mem ?_ IH
        intro a b _ha hb hR
        obtain ⟨ra, hra, hname, hmin⟩ := hR
        refine ⟨ra, List.mem_cons_of_mem _ (List.mem_of_mem_filter hra), hname, ?_⟩
        intro rb hrb hnb
        rcases List.mem_cons.1 hrb with hcase | hcase
        · exact absurd (hcase ▸ hnb : r.name = b).symm (hmem' b hb)
        · refine hmin rb (List.mem_filter.2 ⟨hcase, ?_⟩) hnb
          simp only [decide_eq_true_eq]
          exact hnb ▸ hmem' b hb

/-! ### Helper lemmas: the encoder -/

lemma encoding_length (samples : List (String × ℚ)) :
    ((MeanEncoder.fit samples).encoding).length = (sortedMeans samples).length := by
  simp [MeanEncoder.fit, List.enum_length]

lemma encoding_map_snd (samples : List (String × ℚ)) :
    ((MeanEncoder.fit samples).encoding).map Prod.snd
      = List.range (sortedMeans samples).length := by
  show (((sortedMeans samples).enum.map (fun ic => (ic.2.1, ic.1))).map Prod.snd)
      = List.range (sortedMeans samples).length
  rw [List.map_map]
  exact List.enum_map_fst _

lemma encoding_map_fst (samples : List (String × ℚ)) :
    ((MeanEncoder.fit samples).encoding).map Prod.fst
      = (sortedMeans samples).map Prod.fst := by
  show (((sortedMeans samples).enum.map (fun ic => (ic.2.1, ic.1))).map Prod.fst)
      = (sortedMeans samples).map Prod.fst
  rw [List.map_map]
  have h2 : (sortedMeans samples).map Prod.fst
      = (List.map Prod.snd (sortedMeans samples).enum).map Prod.fst := by
    rw [List.enum_map_snd]
  rw [h2, List.map_map]
  rfl

lemma mem_encoding_iff (samples : List (String × ℚ)) (c : String) (n : ℕ) :
    (c, n) ∈ (MeanEncoder.fit samples).encoding ↔
      ∃ mq : ℚ, (sortedMeans samples)[n]? = some (c, mq) := by
  show (c, n) ∈ (sortedMeans samples).enum.map (fun ic => (ic.2.1, ic.1)) ↔ _
  rw [List.mem_map]
  constructor
  · rintro ⟨⟨i, p⟩, hmem, heq⟩
    simp only [Prod.mk.injEq] at heq
    obtain ⟨hc, hn⟩ := heq
    subst hn
    refine ⟨p.2, ?_⟩
    have hpm := List.mk_mem_enum_iff_getElem?.1 hmem
    rw [← hc, Prod.mk.eta]
    exact hpm
  · rintro ⟨mq, hget⟩
    exact ⟨(n, (c, mq)), List.mk_mem_enum_iff_getElem?.2 hget, rfl⟩

lemma mem_groupKeys_iff (samples : List (String × ℚ)) (c : String) :
    c ∈ groupKeys samples ↔ c ∈ samples.map Prod.fst := by
  rw [groupKeys, (List.perm_insertionSort strLE _).mem_iff, mem_uniqueFirst]

lemma mem_sortedMeans (samples : List (String × ℚ)) {p : String × ℚ}
    (hp : p ∈ sortedMeans samples) :
    p.1 ∈ groupKeys samples ∧ p.2 = meanFor samples p.1 := by
  have hmem := (List.perm_insertionSort meanLE ((groupKeys samples).map
    (fun c => (c, meanFor samples c)))).mem_iff.1 hp
  rcases List.mem_map.1 hmem with ⟨c, hc, hceq⟩
  constructor
  · rw [← hceq]; exact hc
  · rw [← hceq]

lemma sortedMeans_mem_of_key (samples : List (String × ℚ)) {c : String}
    (hc : c ∈ groupKeys samples) :
    (c, meanFor samples c) ∈ sortedMeans samples := by
  rw [sortedMeans, (List.perm_insertionSort meanLE _).mem_iff]
  exact List.mem_map.2 ⟨c, hc, rfl⟩

lemma sortedMeans_map_fst_perm (samples : List (String × ℚ)) :
    ((sortedMeans samples).map Prod.fst).Perm (groupKeys samples) := by
  have hperm := (List.perm_insertionSort meanLE ((groupKeys samples).map
    (fun c => (c, meanFor samples c)))).map Prod.fst
  rw [List.map_map] at hperm
  rw [show (Prod.fst ∘ fun c : String => (c, meanFor samples c)) = id from rfl,
    List.map_id] at hperm
  exact hperm

lemma groupKeys_nodup (samples : List (String × ℚ)) : (groupKeys samples).Nodup :=
  (List.perm_insertionSort strLE _).nodup_iff.2 (nodup_uniqueFirst _)

lemma sortedMeans_length (samples : List (String × ℚ)) :
    (sortedMeans samples).length = (uniqueFirst (samples.map Prod.fst)).length := by
  rw [sortedMeans, (List.perm_insertionSort meanLE _).length_eq, List.length_map,
    groupKeys, (List.perm_insertionSort strLE _).length_eq]

lemma sortedMeans_sorted (samples : List (String × ℚ)) :
    List.Pairwise (fun p q : String × ℚ => p.2 ≤ q.2) (sortedMeans samples) :=
  List.sorted_insertionSort meanLE _

lemma mem_cats_of_encoding (samples : List (String × ℚ)) (c : String) (n : ℕ)
    (h : (c, n) ∈ (MeanEncoder.fit samples).encoding) : c ∈ samples.map Prod.fst := by
  rcases (mem_encoding_iff samples c n).1 h with ⟨mq, hget⟩
  have hmem : ((c, mq) : String × ℚ) ∈ sortedMeans samples := List.getElem?_mem hget
  exact (mem_groupKeys_iff samples c).1 (mem_sortedMeans samples hmem).1

lemma exists_rank_of_mem (samples : List (String × ℚ)) (c : String)
    (hc : c ∈ samples.map Prod.fst) :
    ∃ n, (c, n) ∈ (MeanEncoder.fit samples).encoding := by
  have hck : c ∈ groupKeys samples := (mem_groupKeys_iff samples c).2 hc
  rcases List.getElem?_of_mem (sortedMeans_mem_of_key samples hck) with ⟨n, hget⟩
  exact ⟨n, (mem_encoding_iff samples c n).2 ⟨_, hget⟩⟩

/-! ### Claim theorems -/

/-- C1: on a non-empty fit dataset, `fit` assigns each distinct category a
rank; the ranks are exactly the positions 0..N−1 (N = number of distinct
categories), and the per-category arithmetic mean of the target is
non-decreasing in the rank. -/
theorem C1_fit_dense_monotone (samples : List (String × ℚ)) (_hne : samples ≠ []) :
    (∀ c, (∃ n, (c, n) ∈ (MeanEncoder.fit samples).encoding) ↔ c ∈ samples.map Prod.fst) ∧
    ((MeanEncoder.fit samples).encoding).map Prod.snd
      = List.range ((MeanEncoder.fit samples).encoding).length ∧
    ((MeanEncoder.fit samples).encoding).length
      = (uniqueFirst (samples.map Prod.fst)).length ∧
    (∀ c₁ n₁ c₂ n₂, (c₁, n₁) ∈ (MeanEncoder.fit samples).encoding →
      (c₂, n₂) ∈ (MeanEncoder.fit samples).encoding → n₁ ≤ n₂ →
      meanFor samples c₁ ≤ meanFor samples c₂) := by
  refine ⟨?_, ?_, ?_, ?_⟩
  · intro c
    exact ⟨fun ⟨n, hcn⟩ => mem_cats_of_encoding samples c n hcn,
      fun hc => exists_rank_of_mem samples c hc⟩
  · rw [encoding_map_snd, encoding_length]
  · rw [encoding_length, sortedMeans_length]
  · intro c₁ n₁ c₂ n₂ h₁ h₂ hle
    rcases (mem_encoding_iff _ _ _).1 h₁ with ⟨m₁, hg₁⟩
    rcases (mem_encoding_iff _ _ _).1 h₂ with ⟨m₂, hg₂⟩
    have hm₁ : m₁ = meanFor samples c₁ :=
      (mem_sortedMeans samples (List.getElem?_mem hg₁)).2
    have hm₂ : m₂ = meanFor samples c₂ :=
      (mem_sortedMeans samples (List.getElem?_mem hg₂)).2
    rcases Nat.lt_or_ge n₁ n₂ with hlt | hge
    · rcases List.getElem?_eq_some_iff.1 hg₁ with ⟨hb₁, he₁⟩
      rcases List.getElem?_eq_some_iff.1 hg₂ with ⟨hb₂, he₂⟩
      have hp := (List.pairwise_iff_getElem.1 (sortedMeans_sorted samples)) n₁ n₂ hb₁ hb₂ hlt
      rw [he₁, he₂] at hp
      rw [← hm₁, ← hm₂]
      exact hp
    · have heq : n₁ = n₂ := le_antisymm hle hge
      subst heq
      rw [hg₁] at hg₂
      injection hg₂ with hg₂
      injection hg₂ with hgc hgm
      rw [← hm₁, ← hm₂, hgm]

/-- C2: on success, `count` is the number of records at distance ≤ radius
(boundary inclusive) and `nearest` is the minimum distance over all
records — also when it exceeds the radius — rounded to one decimal. -/
theorem C2_count_and_nearest (geo : Coord → Coord → ℚ) (x : CellVal) (df : Frame)
    (radius : ℚ) (res : CNResult) (xl : Coord) (coords : List Coord)
    (_hr : 0 < radius)
    (hx : evalCell x = Except.ok xl)
    (hdf : evalFrame df = Except.ok coords)
    (h : count_nearby geo x df radius = Except.ok res) :
    res.count = ((df.zip coords).filter (fun rc => decide (geo xl rc.2 ≤ radius))).length ∧
    ∃ m, m ∈ coords.map (fun c => geo xl c) ∧
      (∀ k ∈ coords.map (fun c => geo xl c), m ≤ k) ∧ res.nearest = round1 m := by
  rcases count_nearby_ok_iff.1 h with ⟨xl', coords', m, hx', hdf', hm, hres⟩
  rw [hx] at hx'
  cases hx'
  rw [hdf] at hdf'
  cases hdf'
  subst hres
  constructor
  · simp only [queryOutcome, assignKm_assignLatlong_eq, inRadius, List.filter_map,
      List.length_map]
    rfl
  · haveI : Std.Antisymm (fun (a b : ℚ) => a ≤ b) := ⟨fun h₁ h₂ => le_antisymm h₁ h₂⟩
    have hmm := (List.min?_eq_some_iff (le_refl) (fun a b => min_choice a b)
      (fun a b c => le_min_iff)).1 hm
    exact ⟨m, hmm.1, hmm.2, rfl⟩

/-- C3: on success, the returned ids are the `name_col` values of the
records within the radius, without duplicates, ordered so that an id
listed earlier has a qualifying record at least as close as every
qualifying record of any id listed later; zero qualifying records give the
empty sequence. -/
theorem C3_ids_sorted_dedup (geo : Coord → Coord → ℚ) (x : CellVal) (df : Frame)
    (radius : ℚ) (res : CNResult)
    (_hr : 0 < radius)
    (h : count_nearby geo x df radius = Except.ok res) :
    res.facilities.Nodup ∧
    (∀ s, s ∈ res.facilities ↔ ∃ rr, rr ∈ inRadius res.df radius ∧ rr.name = s) ∧
    List.Pairwise (fun a b => ∃ ra, ra ∈ inRadius res.df radius ∧ ra.name = a ∧
      ∀ rb, rb ∈ inRadius res.df radius → rb.name = b → kmD ra ≤ kmD rb) res.facilities ∧
    (inRadius res.df radius = [] → res.facilities = []) := by
  rcases count_nearby_ok_iff.1 h with ⟨xl, coords, m, hx, hdf, hm, hres⟩
  subst hres
  simp only [queryOutcome]
  set df2 := assignKm (assignLatlong df coords) (coords.map (fun c => geo xl c)) with hdf2
  set W := inRadius df2 radius with hWdef
  have hmemW : ∀ z : Row, z ∈ sortByKm W ↔ z ∈ W := fun z =>
    (List.perm_insertionSort kmLE W).mem_iff
  have hsorted : List.Pairwise (fun a b => kmD a ≤ kmD b) (sortByKm W) :=
    List.sorted_insertionSort kmLE W
  refine ⟨nodup_uniqueFirst _, ?_, ?_, ?_⟩
  · intro s
    rw [mem_uniqueFirst, List.mem_map]
    constructor
    · rintro ⟨rr, hrr, hname⟩
      exact ⟨rr, (hmemW rr).1 hrr, hname⟩
    · rintro ⟨rr, hrr, hname⟩
      exact ⟨rr, (hmemW rr).2 hrr, hname⟩
  · have hP := pairwise_names_of_sorted (sortByKm W).length (sortByKm W) le_rfl hsorted
    refine hP.imp ?_
    rintro a b ⟨ra, hra, hname, hmin⟩
    exact ⟨ra, (hmemW ra).1 hra, hname, fun rb hrb hnb => hmin rb ((hmemW rb).2 hrb) hnb⟩
  · intro hW
    rw [sortByKm, hW]
    simp [uniqueFirst_nil]

/-- C4: after fitting a non-empty dataset the encoding round-trips:
`inverse_transform` then `transform` is the identity on every valid rank,
and `transform` then `inverse_transform` is the identity on every category
seen during fit. -/
theorem C4_round_trip (samples : List (String × ℚ)) (_hne : samples ≠ []) :
    (∀ r : ℕ, r < ((MeanEncoder.fit samples).encoding).length →
      ∃ c, (MeanEncoder.fit samples).inverse_transform r = Except.ok c ∧
        (MeanEncoder.fit samples).transform c = Except.ok r) ∧
    (∀ c, c ∈ samples.map Prod.fst →
      ∃ r, (MeanEncoder.fit samples).transform c = Except.ok r ∧
        (MeanEncoder.fit samples).inverse_transform r = Except.ok c) := by
  have hfstnd : (((MeanEncoder.fit samples).encoding).map Prod.fst).Nodup := by
    rw [encoding_map_fst]
    exact (sortedMeans_map_fst_perm samples).nodup_iff.2 (groupKeys_nodup samples)
  have hinv_fst : ((MeanEncoder.fit samples).inverse_encoding).map Prod.fst
      = ((MeanEncoder.fit samples).encoding).map Prod.snd := by
    show (((MeanEncoder.fit samples).encoding).map (fun p => (p.2, p.1))).map Prod.fst = _
    rw [List.map_map]
    rfl
  have hinvnd : (((MeanEncoder.fit samples).inverse_encoding).map Prod.fst).Nodup := by
    rw [hinv_fst, encoding_map_snd]
    exact List.nodup_range _
  have hmem_swap : ∀ c n, (c, n) ∈ (MeanEncoder.fit samples).encoding →
      (n, c) ∈ (MeanEncoder.fit samples).inverse_encoding := fun c n h =>
    List.mem_map.2 ⟨(c, n), h, rfl⟩
  constructor
  · intro r hr
    have hrmem : r ∈ ((MeanEncoder.fit samples).encoding).map Prod.snd := by
      rw [encoding_map_snd]
      rw [encoding_length] at hr
      exact List.mem_range.2 hr
    rcases List.mem_map.1 hrmem with ⟨⟨c, n⟩, hp, hpsnd⟩
    simp only at hpsnd
    subst hpsnd
    have hlook_inv : ((MeanEncoder.fit samples).inverse_encoding).lookup n = some c :=
      lookup_eq_some_of_mem _ n c hinvnd (hmem_swap c n hp)
    have hlook_enc : ((MeanEncoder.fit samples).encoding).lookup c = some n :=
      lookup_eq_some_of_mem _ c n hfstnd hp
    exact ⟨c, by rw [MeanEncoder.inverse_transform, hlook_inv],
      by rw [MeanEncoder.transform, hlook_enc]⟩
  · intro c hc
    rcases exists_rank_of_mem samples c hc with ⟨n, hp⟩
    have hlook_enc : ((MeanEncoder.fit samples).encoding).lookup c = some n :=
      lookup_eq_some_of_mem _ c n hfstnd hp
    have hlook_inv : ((MeanEncoder.fit samples).inverse_encoding).lookup n = some c :=
      lookup_eq_some_of_mem _ n c hinvnd (hmem_swap c n hp)
    exact ⟨n, by rw [MeanEncoder.transform, hlook_enc],
      by rw [MeanEncoder.inverse_transform, hlook_inv]⟩

/-- C9: calling `count_nearby` twice in succession with identical
arguments, the second call on the collection as the first call left it,
returns the identical result (including the identical frame state). -/
theorem C9_query_idempotent (geo : Coord → Coord → ℚ) (x : CellVal) (df : Frame)
    (radius : ℚ) (res : CNResult)
    (h : count_nearby geo x df radius = Except.ok res) :
    count_nearby geo x res.df radius = Except.ok res := by
  rcases count_nearby_ok_iff.1 h with ⟨xl, coords, m, hx, hdf, hm, hres⟩
  have hlen := evalFrame_length hdf
  subst hres
  apply count_nearby_ok_iff.2
  refine ⟨xl, coords, m, hx, ?_, hm, ?_⟩
  · show evalFrame (queryOutcome geo xl df coords radius m).df = Except.ok coords
    simp only [queryOutcome, assignKm_assignLatlong_eq]
    exact evalFrame_fused _ df coords hlen
  · show queryOutcome geo xl df coords radius m =
      queryOutcome geo xl (queryOutcome geo xl df coords radius m).df coords radius m
    simp only [queryOutcome, assignKm_assignLatlong_eq, fused_zip_self]

/-- C10: on success, `count` is at least the number of returned ids, with
equality exactly when the qualifying records carry pairwise-distinct
identifier values. -/
theorem C10_count_ge_ids (geo : Coord → Coord → ℚ) (x : CellVal) (df : Frame)
    (radius : ℚ) (res : CNResult)
    (_hr : 0 < radius)
    (h : count_nearby geo x df radius = Except.ok res) :
    res.facilities.length ≤ res.count ∧
    (res.count = res.facilities.length ↔ ((inRadius res.df radius).map Row.name).Nodup) := by
  rcases count_nearby_ok_iff.1 h with ⟨xl, coords, m, hx, hdf, hm, hres⟩
  subst hres
  simp only [queryOutcome]
  set W := inRadius (assignKm (assignLatlong df coords)
    (coords.map (fun c => geo xl c))) radius with hW
  have hperm : ((sortByKm W).map Row.name).Perm (W.map Row.name) :=
    (List.perm_insertionSort kmLE W).map Row.name
  have hlenL : ((sortByKm W).map Row.name).length = W.length := by
    rw [List.length_map, sortByKm, (List.perm_insertionSort kmLE W).length_eq]
  constructor
  · calc (uniqueFirst ((sortByKm W).map Row.name)).length
        ≤ ((sortByKm W).map Row.name).length := length_uniqueFirst_le _
      _ = W.length := hlenL
  · rw [← hperm.nodup_iff, ← length_uniqueFirst_eq_iff, hlenL]
    exact eq_comm

/-! ### Concrete material for the code-bug theorems and the witnesses -/

/-- A concrete executable distance function standing in for the external
geodesic call in concrete instances: taxicab distance on degree pairs. -/
def geoTaxi : Coord → Coord → ℚ := fun a b => |a.1 - b.1| + |a.2 - b.2|

/-- Concrete fit dataset used by witnesses (the spec's own scenario). -/
def samplesW : List (String × ℚ) := [(("East"), 100), (("West"), 300), (("North"), 200)]

/-- Concrete facility frame used by witnesses. -/
def dfW : Frame :=
  [{ latlong := CellVal.pair (0, 1), name := ("A"), km := none },
   { latlong := CellVal.pair (3, 0), name := ("B"), km := none }]

/-- Evaluated coordinates of `dfW`. -/
def coordsW : List Coord := [(0, 1), (3, 0)]

/-- The outcome of `count_nearby geoTaxi (0,0) dfW 2`: facility A at
distance 1 qualifies, B at distance 3 does not; the shared frame comes
back with the `"km"` column written in place. -/
def resW : CNResult :=
  { df := [{ latlong := CellVal.pair (0, 1), name := ("A"), km := some 1 },
           { latlong := CellVal.pair (3, 0), name := ("B"), km := some 3 }]
    count := 1
    nearest := 1
    facilities := [("A")] }

lemma resW_ok : count_nearby geoTaxi (CellVal.pair (0, 0)) dfW 2 = Except.ok resW := by
  norm_num [count_nearby, dfW, geoTaxi, evalFrame, evalCell, queryOutcome, assignLatlong,
    assignKm, inRadius, sortByKm, List.insertionSort, List.orderedInsert, kmLE, kmD,
    uniqueFirst, uniqueFirstN, round1, resW, List.min?, min_def]

/-- C5: the claim that `count_nearby` leaves the shared collection
unmutated fails on the code: the call writes the derived `"km"` column
onto the shared frame, and it persists after the call returns (every row
of the post-call frame carries a distance value). -/
theorem C5_distance_column_persists :
    ∃ res, count_nearby geoTaxi (CellVal.pair (0, 0)) dfW 2 = Except.ok res ∧
      ∀ r ∈ res.df, r.km ≠ none :=
  ⟨resW, resW_ok, by decide⟩

/-- C6: on an empty facility collection `count_nearby` does not return
`(0, sentinel, [])`; it raises (the `AttributeError` from `nan.km`). -/
theorem C6_empty_frame_raises :
    count_nearby geoTaxi (CellVal.pair (0, 0)) [] 1 = Except.error PyErr.attrError := rfl

/-- C7: a malformed coordinate string is fed to Python `eval`, so the call
fails with whatever `eval` raises — not with the spec's typed
`MalformedCoordinateError` from a strict parser. -/
theorem C7_eval_not_strict_parse :
    count_nearby geoTaxi (CellVal.str ("(1, 2")) dfW 1 = Except.error PyErr.evalRaised ∧
    PyErr.evalRaised ≠ PyErr.malformedCoordinateError :=
  ⟨rfl, by decide⟩

/-- C8: `transform` on a category unseen during fit raises a plain dict
`KeyError`, not the spec's typed `UnknownCategoryError`; on a seen
category it returns the rank. -/
theorem C8_transform_keyerror :
    (MeanEncoder.fit [(("East"), 100)]).transform ("West") = Except.error PyErr.keyError ∧
    (MeanEncoder.fit [(("East"), 100)]).transform ("East") = Except.ok 0 ∧
    PyErr.keyError ≠ PyErr.unknownCategoryError :=
  ⟨rfl, rfl, by decide⟩

/-- Witness for C1 at the spec's scenario dataset: the ranks are dense and
the encoding evaluates to {East: 0, North: 1, West: 2}. -/
theorem C1_fit_dense_monotone_witness :
    ((MeanEncoder.fit samplesW).encoding).map Prod.snd
      = List.range ((MeanEncoder.fit samplesW).encoding).length ∧
    (MeanEncoder.fit samplesW).encoding = [(("East"), 0), (("North"), 1), (("West"), 2)] :=
  ⟨(C1_fit_dense_monotone samplesW (by decide)).2.1, by
    norm_num +decide [MeanEncoder.fit, sortedMeans, groupKeys, meanFor, targetsFor,
      samplesW, uniqueFirst, uniqueFirstN, List.insertionSort, List.orderedInsert, strLE,
      strLEb, meanLE, List.enum, List.enumFrom, List.filter_cons, List.filter_nil,
      List.sum_cons, List.sum_nil, decide_eq_true_eq]⟩

/-- Witness for C2 at a concrete query. -/
theorem C2_count_and_nearest_witness :
    resW.count = ((dfW.zip coordsW).filter
      (fun rc => decide (geoTaxi (0, 0) rc.2 ≤ 2))).length :=
  (C2_count_and_nearest geoTaxi (CellVal.pair (0, 0)) dfW 2 resW (0, 0) coordsW
    (by norm_num) rfl rfl resW_ok).1

/-- Witness for C3 at a concrete query. -/
theorem C3_ids_sorted_dedup_witness : resW.facilities.Nodup :=
  (C3_ids_sorted_dedup geoTaxi (CellVal.pair (0, 0)) dfW 2 resW (by norm_num) resW_ok).1

/-- Witness for C4 at the spec's scenario dataset: rank 2 round-trips. -/
theorem C4_round_trip_witness :
    ∃ c, (MeanEncoder.fit samplesW).inverse_transform 2 = Except.ok c ∧
      (MeanEncoder.fit samplesW).transform c = Except.ok 2 :=
  (C4_round_trip samplesW (by decide)).1 2 (by
    rw [encoding_length, sortedMeans_length]
    decide)

/-- Witness for C9 at a concrete query: the second call on the post-call
frame returns the identical result. -/
theorem C9_query_idempotent_witness :
    count_nearby geoTaxi (CellVal.pair (0, 0)) resW.df 2 = Except.ok resW :=
  C9_query_idempotent geoTaxi (CellVal.pair (0, 0)) dfW 2 resW resW_ok

/-- Witness for C10 at a concrete query. -/
theorem C10_count_ge_ids_witness : resW.facilities.length ≤ resW.count :=
  (C10_count_ge_ids geoTaxi (CellVal.pair (0, 0)) dfW 2 resW (by norm_num) resW_ok).1
